import Mathlib

/-!
Verification of the arc.js transaction-lifecycle / handle-cache subsystem.

Shallow embedding of:
* `ContractWrapperFactory` (contract-handle cache) from the source file
  containing `getHydratedWrapper`, `getCachedContract`, `setCachedContract`;
* `ConfigService.get` / `ConfigService.set` from `lib/configService.ts`;
* `Utils.numberToPermissionsString` / `Utils.permissionsStringToNumber`
  from `lib/utils.ts`;
* `DAO._getSchemes` / `DAO._handleSchemeEvent` from `lib/dao.ts`;
* `DAO.new` (its action trace) from the source file containing the
  `TransactionService.publishKickoffEvent` call;
* the `TransactionService` lifecycle tracker and `WrapperService` directory,
  whose implementations are not part of the sources at hand and are
  modelled from the specification.

JavaScript `Map` objects are modelled as association lists with
insertion-order-preserving `set` (`mapSet`) and `get` (`mapGet`); `undefined`
is modelled by `Option`; a thrown exception is modelled by `Except.error`.
-/

set_option autoImplicit false

namespace ArcJs

/-- JS `Map.get`: first binding for the key, `undefined` (`none`) otherwise. -/
def mapGet {κ α : Type} [DecidableEq κ] : List (κ × α) → κ → Option α
  | [], _ => none
  | (k', v) :: rest, k => if k' = k then some v else mapGet rest k

/-- JS `Map.set`: overwrite the binding in place when the key is present,
append a new binding otherwise (JS Maps preserve insertion order). -/
def mapSet {κ α : Type} [DecidableEq κ] : List (κ × α) → κ → α → List (κ × α)
  | [], k, v => [(k, v)]
  | (k', v') :: rest, k, v =>
    if k' = k then (k, v) :: rest else (k', v') :: mapSet rest k v

/-- An ethereum address (modelled as its string form). -/
abbrev Address := String

/-- A hydrated contract wrapper: `id` stands for the object identity of the
client-side handle, `address` is the on-chain address it wraps. -/
structure Wrapper where
  id : Nat
  address : Address
deriving DecidableEq, Repr

/-- `ContractWrapperFactory.contractCache`: a Map keyed by contract name of a
Map keyed by address to a wrapper. -/
abbrev ContractCache := List (String × List (Address × Wrapper))

/-- `ContractWrapperFactory.getCachedContract(name, at)`: `undefined` when no
address is given, when there is no address map for the name, or when the
address map has no entry at the address. -/
def getCachedContract (cache : ContractCache) (name : String)
    (at_ : Option Address) : Option Wrapper :=
  match at_ with
  | none => none
  | some a =>
    match mapGet cache name with
    | none => none
    | some addressMap => mapGet addressMap a

/-- `ContractWrapperFactory.setCachedContract(name, wrapper)`: get or create
the address map for `name`, then store the wrapper under `wrapper.address`. -/
def setCachedContract (cache : ContractCache) (name : String)
    (wrapper : Wrapper) : ContractCache :=
  let addressMap := (mapGet cache name).getD []
  mapSet cache name (mapSet addressMap wrapper.address wrapper)

/-- Result of one `getHydratedWrapper` call: the outcome (the returned wrapper,
possibly `undefined`, or a propagated exception), the cache state after the
call, and how many times the `getWrapper` hydrate callback was invoked. -/
structure LookupResult where
  outcome : Except String (Option Wrapper)
  cache : ContractCache
  hydrations : Nat
deriving Repr

/-- The address actually used for the cache probe: the `address` argument when
given, else `this.solidityContract.address` (`fallbackAddress`, which is `none`
when the contract has not been deployed and reading the property throws). -/
def resolveLookupAddress (address fallbackAddress : Option Address) :
    Option Address :=
  match address with
  | some a => some a
  | none => fallbackAddress

/-- `ContractWrapperFactory.getHydratedWrapper(getWrapper, address)`.
`cacheEnabled` is `ConfigService.get("cacheContractWrappers")`; `getWrapper` is
the hydrate callback, whose single evaluation is represented by its result
(`Except.error` = rejected promise, `.ok none` = resolved to `undefined`).
When caching is enabled the cache is probed first; on a hit the cached wrapper
is returned without hydrating; on a miss the wrapper is hydrated and, if it is
truthy, stored before being returned. An exception from the hydrate callback
propagates and leaves the cache untouched. -/
def getHydratedWrapper (cacheEnabled : Bool) (cache : ContractCache)
    (name : String) (getWrapper : Except String (Option Wrapper))
    (address fallbackAddress : Option Address) : LookupResult :=
  if cacheEnabled then
    match getCachedContract cache name
        (resolveLookupAddress address fallbackAddress) with
    | some w => ⟨.ok (some w), cache, 0⟩
    | none =>
      match getWrapper with
      | .error e => ⟨.error e, cache, 1⟩
      | .ok none => ⟨.ok none, cache, 1⟩
      | .ok (some w) => ⟨.ok (some w), setCachedContract cache name w, 1⟩
  else
    match getWrapper with
    | .error e => ⟨.error e, cache, 1⟩
    | .ok ow => ⟨.ok ow, cache, 1⟩

/-- The part of `getHydratedWrapper` (caching enabled) that runs before the
`await getWrapper()` suspension point: the cache probe. -/
def checkCachePhase (cache : ContractCache) (name : String)
    (address fallbackAddress : Option Address) : Option Wrapper :=
  getCachedContract cache name (resolveLookupAddress address fallbackAddress)

/-- The part of `getHydratedWrapper` that runs after the hydration resolves:
store the wrapper when it is truthy. -/
def completeHydrationPhase (cache : ContractCache) (name : String)
    (hydrated : Option Wrapper) : ContractCache :=
  match hydrated with
  | some w => setCachedContract cache name w
  | none => cache

/-- Two `getHydratedWrapper` calls for the same key running concurrently, on
the cooperative schedule where both reach the `await getWrapper()` suspension
point — i.e. both run `checkCachePhase` — before either hydration completes.
Returns (first caller's wrapper, second caller's wrapper, final cache, number
of hydrate invocations).  On a hit neither caller hydrates; on a miss both
callers hydrate and both store, the second store last. -/
def interleavedLookups (cache : ContractCache) (name : String)
    (address fallbackAddress : Option Address)
    (hydrated1 hydrated2 : Option Wrapper) :
    Option Wrapper × Option Wrapper × ContractCache × Nat :=
  match checkCachePhase cache name address fallbackAddress with
  | some w => (some w, some w, cache, 0)
  | none =>
    let cacheAfterFirst := completeHydrationPhase cache name hydrated1
    (hydrated1, hydrated2,
      completeHydrationPhase cacheAfterFirst name hydrated2, 2)

/-! ### ConfigService (`lib/configService.ts`) -/

/-- JS `String.prototype.split` with a one-character separator, on the
character list of the string: `"a.b".split(".") = ["a","b"]`,
`"".split(".") = [""]`.  Always returns a non-empty list. -/
def jsSplit (sep : Char) : List Char → List (List Char)
  | [] => [[]]
  | c :: rest =>
    match jsSplit sep rest with
    | [] => []
    | g :: gs => if c = sep then [] :: g :: gs else (c :: g) :: gs

/-- A JavaScript value as stored in `ConfigService.data`: a plain object (an
ordered field list), a primitive, or `undefined`. -/
inductive JsValue where
  | obj (fields : List (String × JsValue))
  | str (s : String)
  | num (n : Int)
  | boolVal (b : Bool)
  | undefinedV

/-- JS property read `v[key]`: a present field's value, `undefined` for an
absent field or a primitive receiver, a `TypeError` for an `undefined`
receiver. -/
def jsIndex (v : JsValue) (key : String) : Except String JsValue :=
  match v with
  | .obj fields => .ok ((mapGet fields key).getD .undefinedV)
  | .undefinedV => .error "TypeError: cannot read a property of undefined"
  | _ => .ok .undefinedV

/-- The loop body of `ConfigService.get`: `parts.forEach(part => result =
result[part])`; a `TypeError` raised inside the walk propagates out. -/
def walkParts (v : JsValue) : List String → Except String JsValue
  | [] => .ok v
  | p :: rest =>
    match jsIndex v p with
    | .error e => .error e
    | .ok v2 => walkParts v2 rest

/-- The body of `ConfigService.set` on the split path: walk the
`parts.length - 1` leading segments from `data`, then assign the value under
the final segment.  The in-place JS mutation of the reached nested object is
rendered functionally by rebuilding the spine; assigning a property on a
primitive or `undefined` receiver is a `TypeError`.  The `[]` case cannot be
produced by `split`. -/
def setParts (sectionV : JsValue) (parts : List String) (value : JsValue) :
    Except String JsValue :=
  match parts with
  | [] => .ok sectionV
  | [last] =>
    match sectionV with
    | .obj fields => .ok (.obj (mapSet fields last value))
    | _ => .error "TypeError: cannot set a property on this value"
  | p :: rest =>
    match jsIndex sectionV p with
    | .error e => .error e
    | .ok sub =>
      match setParts sub rest value with
      | .error e => .error e
      | .ok sub2 =>
        match sectionV with
        | .obj fields => .ok (.obj (mapSet fields p sub2))
        | _ => .error "TypeError"

/-- `setting.split(".")`, as the list of segment strings. -/
def settingParts (setting : String) : List String :=
  (jsSplit '.' setting.data).map (fun cs => String.mk cs)

/-- `ConfigService.get(setting)` over an explicit `ConfigService.data`. -/
def ConfigService.get (data : JsValue) (setting : String) :
    Except String JsValue :=
  walkParts data (settingParts setting)

/-- `ConfigService.set(setting, value)` over an explicit
`ConfigService.data`, returning the updated data. -/
def ConfigService.set (data : JsValue) (setting : String) (value : JsValue) :
    Except String JsValue :=
  setParts data (settingParts setting) value

/-! ### Permissions strings (`lib/utils.ts`) -/

/-- A lowercase hexadecimal digit character, as produced by JS
`Number.prototype.toString(16)`. -/
def hexDigitChar (d : Nat) : Char :=
  if d < 10 then Char.ofNat (48 + d) else Char.ofNat (87 + d)

/-- `n.toString(16)` for a non-negative integer: minimal lowercase
hexadecimal digits, most significant first (`0` gives `"0"`). -/
def natToHexAux (n : Nat) (acc : List Char) : List Char :=
  if n < 16 then hexDigitChar n :: acc
  else natToHexAux (n / 16) (hexDigitChar (n % 16) :: acc)
termination_by n
decreasing_by exact Nat.div_lt_self (by omega) (by omega)

/-- `Utils.numberToPermissionsString(permissions)`:
`"0x" + ("00000000" + permissions.toString(16)).substr(-8)`.  (`substr(-8)`
keeps the last 8 characters.)  The falsy-guard `if (!permissions)
permissions = SchemePermissions.None` maps `0` to `0` and changes nothing. -/
def numberToPermissionsString (permissions : Nat) : String :=
  let padded := "00000000".data ++ natToHexAux permissions []
  ⟨'0' :: 'x' :: padded.drop (padded.length - 8)⟩

/-- The numeric value of one hexadecimal character, `none` for a
non-hex-digit character. -/
def hexCharVal (c : Char) : Option Nat :=
  if 48 ≤ c.toNat ∧ c.toNat ≤ 57 then some (c.toNat - 48)
  else if 97 ≤ c.toNat ∧ c.toNat ≤ 102 then some (c.toNat - 87)
  else if 65 ≤ c.toNat ∧ c.toNat ≤ 70 then some (c.toNat - 55)
  else none

/-- Accumulating hexadecimal parse; `none` (JS `NaN`) on any non-hex
character. -/
def parseHexAux : List Char → Nat → Option Nat
  | [], acc => some acc
  | c :: rest, acc =>
    match hexCharVal c with
    | none => none
    | some d => parseHexAux rest (acc * 16 + d)

/-- JS `Number(s)` restricted to the hexadecimal-literal form `0x…` that
`numberToPermissionsString` produces; `none` stands for `NaN` (`"0x"` with no
digits is `NaN`). -/
def jsNumberHex (s : String) : Option Nat :=
  match s.data with
  | '0' :: 'x' :: c :: rest => parseHexAux (c :: rest) 0
  | _ => none

/-- `Utils.permissionsStringToNumber(permissions)`:
`if (!permissions) return 0; return Number(permissions)`. -/
def permissionsStringToNumber (permissions : String) : Option Nat :=
  if permissions = "" then some 0
  else jsNumberHex permissions

/-! ### DAO scheme discovery (`lib/dao.ts`) -/

/-- A decoded `RegisterScheme` log entry (`args._scheme`). -/
structure SchemeLogEntry where
  scheme : Address
deriving DecidableEq, Repr

/-- `DaoSchemeInfo` as built by `DAO._handleSchemeEvent`: address, the Arc
type name when the address is a known wrapper (else `undefined`), and the
scheme's permissions as read from the controller. -/
structure DaoSchemeInfo where
  address : Address
  name : Option String
  permissions : Nat
deriving DecidableEq, Repr

/-- `DAO._handleSchemeEvent(log, arcTypesMap, schemesMap)`: fold the fetched
log entries, in chronological order, into the map keyed by scheme address
(`schemesMap.set` deduplicates: a later entry for the same address overwrites
the earlier one).  `getSchemePermissions` is the controller's live permission
query. -/
def handleSchemeEvent (getSchemePermissions : Address → Nat)
    (arcTypesMap : List (Address × String))
    (schemesMap : List (Address × DaoSchemeInfo)) (log : List SchemeLogEntry) :
    List (Address × DaoSchemeInfo) :=
  log.foldl (fun m entry =>
    mapSet m entry.scheme
      ⟨entry.scheme, mapGet arcTypesMap entry.scheme,
        getSchemePermissions entry.scheme⟩) schemesMap

/-- `DAO._getSchemes()`: fold the full `RegisterScheme` event log into the
address-keyed map, then keep only the schemes whose current live registration
state (`controller.isSchemeRegistered`, queried from the entity and not from
the log) is still registered, in map insertion order. -/
def getSchemes (isSchemeRegistered : Address → Bool)
    (getSchemePermissions : Address → Nat)
    (arcTypesMap : List (Address × String)) (log : List SchemeLogEntry) :
    List DaoSchemeInfo :=
  let schemesMap := handleSchemeEvent getSchemePermissions arcTypesMap [] log
  (schemesMap.map Prod.snd).filter (fun s => isSchemeRegistered s.address)

/-- One registration-lifecycle event in an entity's on-chain history. -/
inductive RegistrationEvent where
  | register (addr : Address)
  | deregister (addr : Address)
deriving DecidableEq, Repr

/-- The entity's current live registration state after a history of events:
an address is registered exactly when its last lifecycle event is a
registration. -/
def liveRegistered (history : List RegistrationEvent) (a : Address) : Bool :=
  history.foldl (fun st e =>
    match e with
    | .register b => if b = a then true else st
    | .deregister b => if b = a then false else st) false

/-- The `RegisterScheme` event stream recorded for a history: the controller
emits one `RegisterScheme` entry per registration. -/
def registerSchemeLog (history : List RegistrationEvent) :
    List SchemeLogEntry :=
  history.filterMap (fun e =>
    match e with
    | .register a => some ⟨a⟩
    | .deregister _ => none)

/-- Entity discovery over an on-chain history: `DAO._getSchemes` run with the
log fetched from that history and the live registration state implied by
it. -/
def discoverSchemes (history : List RegistrationEvent)
    (getSchemePermissions : Address → Nat)
    (arcTypesMap : List (Address × String)) : List DaoSchemeInfo :=
  getSchemes (liveRegistered history) getSchemePermissions arcTypesMap
    (registerSchemeLog history)

/-! ### Transaction lifecycle tracker (spec-modelled) -/

/-- Modelled from the spec: the `TxEventInfo` payload delivered to
subscribers (`TransactionService` is not among the sources at hand) — topic,
running transaction count, and either `none` ("operation started, nothing
mined yet") or the numbered receipt of a mined transaction. -/
structure TxEventInfo where
  topic : String
  txCount : Nat
  tx : Option Nat
deriving DecidableEq, Repr

/-- Modelled from the spec: a `TxEventContext` — the originating topic, the
total number of underlying transactions expected, and the running count
observed so far. -/
structure TxEventContext where
  topic : String
  totalExpected : Nat
  runningCount : Nat
deriving DecidableEq, Repr

/-- Modelled from the spec: `beginOperation(topic, totalSteps)` opens the
context and publishes the kickoff notification (`tx = null`, count `0`). -/
def beginOperation (topic : String) (totalExpected : Nat) :
    TxEventContext × TxEventInfo :=
  (⟨topic, totalExpected, 0⟩, ⟨topic, 0, none⟩)

/-- Modelled from the spec: `recordStepMined(context, receipt)` increments
the running count and publishes a notification carrying the receipt and the
new count. -/
def recordStepMined (ctx : TxEventContext) (receipt : Nat) :
    TxEventContext × TxEventInfo :=
  ({ ctx with runningCount := ctx.runningCount + 1 },
    ⟨ctx.topic, ctx.runningCount + 1, some receipt⟩)

/-- The notifications published by calling `recordStepMined` once per mined
transaction, in mining order. -/
def recordSteps (ctx : TxEventContext) : List Nat → List TxEventInfo
  | [] => []
  | r :: rest =>
    let next := recordStepMined ctx r
    next.2 :: recordSteps next.1 rest

/-- Modelled from the spec: the full notification sequence published on a
composite operation's topic — the kickoff, then one notification per mined
underlying transaction. -/
def operationNotifications (topic : String) (totalExpected : Nat)
    (receipts : List Nat) : List TxEventInfo :=
  let opened := beginOperation topic totalExpected
  opened.2 :: recordSteps opened.1 receipts

/-! ### `DAO.new` (caller of the tracker) -/

/-- One step in the execution of `DAO.new`, in program order: a
`TransactionService` publication, or a call that submits transactions to the
network. -/
inductive DaoNewAction where
  | publishKickoff (topic : String) (txCount : Nat)
  | networkCall (callName : String)
deriving DecidableEq, Repr

/-- `DAO.new(options)` as its ordered trace of publications and
transaction-submitting network calls, translated from the source: the
kickoff event for topic `"DAO.new"` is published carrying
`daoCreator.forgeOrgTransactionsCount(options) +
daoCreator.setSchemesTransactionsCount(options)` expected transactions, and
only afterwards are `forgeOrg` and `setSchemes` sent.  The two pure
per-operation estimators live in the DaoCreator wrapper, outside the sources
at hand, and are taken as parameters. -/
def daoNewActions {Opts : Type}
    (forgeOrgTransactionsCount setSchemesTransactionsCount : Opts → Nat)
    (options : Opts) : List DaoNewAction :=
  [ .publishKickoff "DAO.new"
      (forgeOrgTransactionsCount options + setSchemesTransactionsCount options),
    .networkCall "forgeOrg",
    .networkCall "setSchemes" ]

/-! ### WrapperService handle directory (spec-modelled) -/

/-- Modelled from the spec: the `WrapperService` handle directory
(`WrapperService` is not among the sources at hand) — the built-once map from
contract-type name to canonical deployed handle, together with hydration by
address, which yields the wrapper of a given type at a given address or
`undefined` when no wrapper of that type exists there. -/
structure WrapperDirectory where
  wrappersByName : List (String × Wrapper)
  wrapperAtAddress : String → Address → Option Wrapper

/-- Modelled from the spec: `WrapperService.getContractWrapper(contract,
address?)` — a pure lookup: an unknown contract name gives `undefined`; with
an address, the wrapper of that type at the address, `undefined` when none
exists there; with no address, the canonical deployed wrapper.  Missing is a
normal outcome and the lookup is total — it never throws. -/
def getContractWrapper (dir : WrapperDirectory) (contract : String)
    (address : Option Address) : Option Wrapper :=
  match mapGet dir.wrappersByName contract with
  | none => none
  | some w =>
    match address with
    | none => some w
    | some a => dir.wrapperAtAddress contract a

end ArcJs

namespace ArcJs

theorem mapGet_mapSet_self {κ α : Type} [DecidableEq κ]
    (m : List (κ × α)) (k : κ) (v : α) : mapGet (mapSet m k v) k = some v := by
  induction m with
  | nil => simp [mapSet, mapGet]
  | cons hd tl ih =>
    obtain ⟨k', v'⟩ := hd
    by_cases h : k' = k
    · simp [mapSet, h, mapGet]
    · simp [mapSet, h, mapGet, ih]

theorem getCachedContract_setCachedContract_self
    (cache : ContractCache) (name : String) (w : Wrapper) :
    getCachedContract (setCachedContract cache name w) name (some w.address)
      = some w := by
  simp [getCachedContract, setCachedContract, mapGet_mapSet_self]

/-- Running the two phases sequentially is exactly `getHydratedWrapper` with
caching enabled and a successfully resolving hydrate callback: the phase split
at the `await` point is faithful. -/
theorem getHydratedWrapper_eq_phases (cache : ContractCache) (name : String)
    (hw : Option Wrapper) (address fallbackAddress : Option Address) :
    getHydratedWrapper true cache name (.ok hw) address fallbackAddress
      = match checkCachePhase cache name address fallbackAddress with
        | some w => ⟨.ok (some w), cache, 0⟩
        | none => ⟨.ok hw, completeHydrationPhase cache name hw, 1⟩ := by
  cases hcheck : checkCachePhase cache name address fallbackAddress with
  | some w =>
    simp [getHydratedWrapper, checkCachePhase] at hcheck ⊢
    simp [hcheck]
  | none =>
    cases hw with
    | none =>
      simp [getHydratedWrapper, checkCachePhase] at hcheck ⊢
      simp [hcheck, completeHydrationPhase]
    | some w =>
      simp [getHydratedWrapper, checkCachePhase] at hcheck ⊢
      simp [hcheck, completeHydrationPhase]

/-- C2: with wrapper caching enabled, once a handle has been created and
stored for a (contract-type name, address) key, a later
`getHydratedWrapper` lookup for the same key returns the identical cached
handle, leaves the cache unchanged and does not invoke the hydrate callback
(zero hydrations, whatever the callback would do); a miss invokes it exactly
once and stores the resulting handle — retrievable under its key — before
returning it. -/
theorem contractWrapperFactory_cache_identity
    (cache : ContractCache) (name : String) (a : Address)
    (fallbackAddress : Option Address) (w : Wrapper)
    (getWrapper : Except String (Option Wrapper)) :
    (getCachedContract cache name (some a) = some w →
      getHydratedWrapper true cache name getWrapper (some a) fallbackAddress
        = ⟨.ok (some w), cache, 0⟩)
  ∧ (getCachedContract cache name (some a) = none →
      getHydratedWrapper true cache name (.ok (some w)) (some a)
          fallbackAddress
        = ⟨.ok (some w), setCachedContract cache name w, 1⟩
      ∧ getCachedContract (setCachedContract cache name w) name
          (some w.address) = some w) := by
  constructor
  · intro hhit
    simp [getHydratedWrapper, resolveLookupAddress, hhit]
  · intro hmiss
    refine ⟨?_, getCachedContract_setCachedContract_self cache name w⟩
    simp [getHydratedWrapper, resolveLookupAddress, hmiss]

/-- Witness for C2 at a concrete input: a hit returns the cached handle with
zero hydrations even when the hydrate callback would fail, and a miss on the
empty cache hydrates once and stores the handle. -/
theorem contractWrapperFactory_cache_identity_witness :
    getHydratedWrapper true [("UpgradeScheme", [("0xabc", ⟨7, "0xabc"⟩)])]
        "UpgradeScheme" (.error "boom") (some "0xabc") none
      = ⟨.ok (some ⟨7, "0xabc"⟩),
          [("UpgradeScheme", [("0xabc", ⟨7, "0xabc"⟩)])], 0⟩
  ∧ getHydratedWrapper true [] "UpgradeScheme" (.ok (some ⟨7, "0xabc"⟩))
        (some "0xabc") none
      = ⟨.ok (some ⟨7, "0xabc"⟩),
          setCachedContract [] "UpgradeScheme" ⟨7, "0xabc"⟩, 1⟩ :=
  ⟨(contractWrapperFactory_cache_identity
      [("UpgradeScheme", [("0xabc", ⟨7, "0xabc"⟩)])] "UpgradeScheme" "0xabc"
      none ⟨7, "0xabc"⟩ (.error "boom")).1 rfl,
   ((contractWrapperFactory_cache_identity [] "UpgradeScheme" "0xabc" none
      ⟨7, "0xabc"⟩ (.ok (some ⟨7, "0xabc"⟩))).2 rfl).1⟩

/-- C5: if the hydrate callback fails on a cache miss, the exception
propagates to the caller as a failed lookup, the cache is unchanged (no entry
is added for the key), and a subsequent call for the same key invokes the
hydrate callback again. -/
theorem contractWrapperFactory_hydration_failure
    (cache : ContractCache) (name : String) (a : Address)
    (fallbackAddress : Option Address) (e : String) (w : Wrapper)
    (hmiss : getCachedContract cache name (some a) = none) :
    getHydratedWrapper true cache name (.error e) (some a) fallbackAddress
      = ⟨.error e, cache, 1⟩
  ∧ (getHydratedWrapper true cache name (.ok (some w)) (some a)
        fallbackAddress).hydrations = 1 := by
  constructor
  · simp [getHydratedWrapper, resolveLookupAddress, hmiss]
  · simp [getHydratedWrapper, resolveLookupAddress, hmiss]

/-- Witness for C5 at a concrete input: on the empty cache the failed
hydration propagates, the cache stays empty, and the retry hydrates again. -/
theorem contractWrapperFactory_hydration_failure_witness :
    getHydratedWrapper true [] "UpgradeScheme" (.error "no contract")
        (some "0xabc") none
      = ⟨.error "no contract", [], 1⟩
  ∧ (getHydratedWrapper true [] "UpgradeScheme" (.ok (some ⟨7, "0xabc"⟩))
        (some "0xabc") none).hydrations = 1 :=
  contractWrapperFactory_hydration_failure [] "UpgradeScheme" "0xabc" none
    "no contract" ⟨7, "0xabc"⟩ rfl

/-- C3 counterexample: on the empty cache, two concurrent lookups for the
key ("UpgradeScheme", "0xabc") that both pass the cache check before the
first hydration completes invoke the hydrate callback twice — not exactly
once — and return two distinct handle instances, refuting the claim at this
concrete input. -/
theorem contractWrapperFactory_concurrent_hydration_cex :
    ¬ ((interleavedLookups [] "UpgradeScheme" (some "0xabc") none
          (some ⟨1, "0xabc"⟩) (some ⟨2, "0xabc"⟩)).2.2.2 = 1
      ∧ (interleavedLookups [] "UpgradeScheme" (some "0xabc") none
            (some ⟨1, "0xabc"⟩) (some ⟨2, "0xabc"⟩)).1
        = (interleavedLookups [] "UpgradeScheme" (some "0xabc") none
            (some ⟨1, "0xabc"⟩) (some ⟨2, "0xabc"⟩)).2.1) := by
  decide

/-- C3 (amended): two concurrent `getHydratedWrapper` calls for the same key
that both pass the cache check before the first hydration completes each
invoke the hydrate callback — two invocations, not one — and each caller
receives its own hydration result, which may be a distinct instance; the
hydration completing last overwrites the other's cache entry, so later
lookups for the key return that single instance. -/
theorem contractWrapperFactory_concurrent_hydration_amended
    (cache : ContractCache) (name : String)
    (address fallbackAddress : Option Address) (w1 w2 : Wrapper)
    (hmiss : checkCachePhase cache name address fallbackAddress = none) :
    interleavedLookups cache name address fallbackAddress (some w1) (some w2)
      = (some w1, some w2,
          setCachedContract (setCachedContract cache name w1) name w2, 2)
  ∧ getCachedContract
      (setCachedContract (setCachedContract cache name w1) name w2) name
      (some w2.address) = some w2 := by
  constructor
  · simp [interleavedLookups, hmiss, completeHydrationPhase]
  · exact getCachedContract_setCachedContract_self
      (setCachedContract cache name w1) name w2

/-- Witness for the amended C3 at a concrete input: on the empty cache both
interleaved callers hydrate, and the second store wins. -/
theorem contractWrapperFactory_concurrent_hydration_amended_witness :
    interleavedLookups [] "UpgradeScheme" (some "0xabc") none
        (some ⟨1, "0xabc"⟩) (some ⟨2, "0xabc"⟩)
      = (some ⟨1, "0xabc"⟩, some ⟨2, "0xabc"⟩,
          setCachedContract (setCachedContract [] "UpgradeScheme" ⟨1, "0xabc"⟩)
            "UpgradeScheme" ⟨2, "0xabc"⟩, 2)
  ∧ getCachedContract
      (setCachedContract (setCachedContract [] "UpgradeScheme" ⟨1, "0xabc"⟩)
        "UpgradeScheme" ⟨2, "0xabc"⟩) "UpgradeScheme" (some "0xabc")
      = some ⟨2, "0xabc"⟩ :=
  contractWrapperFactory_concurrent_hydration_amended [] "UpgradeScheme"
    (some "0xabc") none ⟨1, "0xabc"⟩ ⟨2, "0xabc"⟩ rfl

theorem jsSplit_ne_nil (sep : Char) (cs : List Char) : jsSplit sep cs ≠ [] := by
  induction cs with
  | nil => simp [jsSplit]
  | cons c rest ih =>
    simp only [jsSplit]
    cases h : jsSplit sep rest with
    | nil => exact absurd h ih
    | cons g gs => by_cases hc : c = sep <;> simp [hc]

theorem settingParts_ne_nil (setting : String) : settingParts setting ≠ [] := by
  have h := jsSplit_ne_nil '.' setting.data
  simp [settingParts]
  intro hcontra
  exact absurd hcontra h

theorem setParts_walkParts (parts : List String) :
    ∀ (sectionV out value : JsValue), parts ≠ [] →
      setParts sectionV parts value = .ok out →
      walkParts out parts = .ok value := by
  induction parts with
  | nil => intro _ _ _ hne; exact absurd rfl hne
  | cons p rest ih =>
    intro sectionV out value _ hset
    cases rest with
    | nil =>
      cases sectionV with
      | obj fields =>
        simp only [setParts, Except.ok.injEq] at hset
        subst hset
        simp [walkParts, jsIndex, mapGet_mapSet_self]
      | str s => simp [setParts] at hset
      | num n => simp [setParts] at hset
      | boolVal b => simp [setParts] at hset
      | undefinedV => simp [setParts] at hset
    | cons q rest2 =>
      cases hidx : jsIndex sectionV p with
      | error e => simp [setParts, hidx] at hset
      | ok sub =>
        cases hrec : setParts sub (q :: rest2) value with
        | error e => simp [setParts, hidx, hrec] at hset
        | ok sub2 =>
          cases sectionV with
          | obj fields =>
            simp only [setParts, hidx, hrec, Except.ok.injEq] at hset
            subst hset
            have hwalk := ih sub sub2 value (by simp) hrec
            have hstep : jsIndex (JsValue.obj (mapSet fields p sub2)) p
                = .ok sub2 := by
              simp [jsIndex, mapGet_mapSet_self]
            calc walkParts (JsValue.obj (mapSet fields p sub2))
                  (p :: q :: rest2)
                = walkParts sub2 (q :: rest2) := by
                  simp only [walkParts, hstep]
              _ = .ok value := hwalk
          | str s => simp [setParts, hidx, hrec] at hset
          | num n => simp [setParts, hidx, hrec] at hset
          | boolVal b => simp [setParts, hidx, hrec] at hset
          | undefinedV => simp [jsIndex] at hidx

/-- C9: `ConfigService` get/set round-trip — whenever
`ConfigService.set(path, v)` succeeds (in particular whenever every
intermediate segment of the dotted path names an existing nested object in
`ConfigService.data`), a subsequent `ConfigService.get(path)` on the updated
data returns exactly `v`. -/
theorem configService_get_set_roundtrip (data out value : JsValue)
    (setting : String)
    (hset : ConfigService.set data setting value = .ok out) :
    ConfigService.get out setting = .ok value :=
  setParts_walkParts (settingParts setting) data out value
    (settingParts_ne_nil setting) hset

/-- Witness for C9 at a concrete input: setting `"a.b"` to `2` in
`{a: {b: 1}}` and reading `"a.b"` back yields `2`. -/
theorem configService_get_set_roundtrip_witness :
    ConfigService.get (.obj [("a", .obj [("b", .num 2)])]) "a.b"
      = .ok (.num 2) :=
  configService_get_set_roundtrip (.obj [("a", .obj [("b", .num 1)])])
    (.obj [("a", .obj [("b", .num 2)])]) (.num 2) "a.b" rfl

/-- C4: `DAO._getSchemes` discovery — the event log is folded in
chronological order into an address-keyed map where a later entry for the
same address overwrites the earlier one; only addresses whose current live
registration state reports registered survive the filter; and on the history
register(A), register(B), deregister(A) with A ≠ B, the discovery result is
exactly B's scheme info — it contains B and not A. -/
theorem dao_getSchemes_discovery
    (perms : Address → Nat) (types : List (Address × String))
    (reg : Address → Bool) (log : List SchemeLogEntry) (a A B : Address)
    (hAB : A ≠ B) :
    mapGet (handleSchemeEvent perms types [] (log ++ [⟨a⟩])) a
        = some ⟨a, mapGet types a, perms a⟩
  ∧ (∀ s ∈ getSchemes reg perms types log, reg s.address = true)
  ∧ discoverSchemes [.register A, .register B, .deregister A] perms types
        = [⟨B, mapGet types B, perms B⟩] := by
  have hBA : B ≠ A := Ne.symm hAB
  refine ⟨?_, ?_, ?_⟩
  · simp [handleSchemeEvent, List.foldl_append, mapGet_mapSet_self]
  · intro s hs
    simpa using (List.mem_filter.mp hs).2
  · simp [discoverSchemes, registerSchemeLog, getSchemes, handleSchemeEvent,
      liveRegistered, mapSet, hAB, hBA]

/-- Witness for C4 at concrete inputs: last-write-wins on a repeated
address, and the register(A), register(B), deregister(A) scenario keeps B
and drops A. -/
theorem dao_getSchemes_discovery_witness :
    mapGet (handleSchemeEvent (fun _ => 3) [] []
        ([⟨"0xa"⟩] ++ [⟨"0xa"⟩])) "0xa" = some ⟨"0xa", none, 3⟩
  ∧ discoverSchemes [.register "0xa", .register "0xb", .deregister "0xa"]
        (fun _ => 3) []
      = [⟨"0xb", none, 3⟩] :=
  ⟨(dao_getSchemes_discovery (fun _ => 3) [] (fun _ => true) [⟨"0xa"⟩]
      "0xa" "0xa" "0xb" (by decide)).1,
   (dao_getSchemes_discovery (fun _ => 3) [] (fun _ => true) [] "0xa"
      "0xa" "0xb" (by decide)).2.2⟩

/-- C6: entity discovery on an entity with an empty event history returns an
empty result (`DAO._getSchemes` over an empty log yields the empty list,
raising no error). -/
theorem dao_getSchemes_empty_log (reg : Address → Bool)
    (perms : Address → Nat) (types : List (Address × String)) :
    getSchemes reg perms types [] = [] := rfl

theorem recordSteps_length (receipts : List Nat) :
    ∀ ctx : TxEventContext, (recordSteps ctx receipts).length
      = receipts.length := by
  induction receipts with
  | nil => intro ctx; rfl
  | cons r rest ih => intro ctx; simp [recordSteps, ih]

theorem recordSteps_getElem (receipts : List Nat) :
    ∀ (ctx : TxEventContext) (i : Nat) (r : Nat), receipts[i]? = some r →
      (recordSteps ctx receipts)[i]?
        = some ⟨ctx.topic, ctx.runningCount + i + 1, some r⟩ := by
  induction receipts with
  | nil => intro ctx i r h; simp at h
  | cons r0 rest ih =>
    intro ctx i r h
    cases i with
    | zero =>
      simp at h
      subst h
      simp [recordSteps, recordStepMined]
    | succ j =>
      simp at h
      have := ih { ctx with runningCount := ctx.runningCount + 1 } j r h
      simp only [recordSteps, recordStepMined] at *
      simpa [Nat.add_assoc, Nat.add_comm, Nat.add_left_comm] using this

/-- C1: for a composite operation with estimated step count N whose N
underlying transactions are mined in order, exactly N + 1 lifecycle
notifications are published on the operation's topic: the first carries
`tx = null` and running count 0, and for each i < N the (i+1)-th carries the
i-th receipt (non-null) and running count i + 1 — strictly increasing counts
1..N, the last equal to N. -/
theorem transactionService_lifecycle (topic : String) (N : Nat)
    (receipts : List Nat) (hlen : receipts.length = N) :
    (operationNotifications topic N receipts).length = N + 1
  ∧ (operationNotifications topic N receipts)[0]? = some ⟨topic, 0, none⟩
  ∧ (∀ i r, receipts[i]? = some r →
      (operationNotifications topic N receipts)[i + 1]?
        = some ⟨topic, i + 1, some r⟩) := by
  refine ⟨?_, by simp [operationNotifications, beginOperation], ?_⟩
  · simp [operationNotifications, recordSteps_length, beginOperation, hlen]
  · intro i r h
    have := recordSteps_getElem receipts ⟨topic, N, 0⟩ i r h
    simpa [operationNotifications, beginOperation] using this

/-- Witness for C1 at a concrete input: an operation with two mined
transactions publishes three notifications; the kickoff has `tx = null` and
count 0, and the first mined step carries receipt 10 with count 1. -/
theorem transactionService_lifecycle_witness :
    (operationNotifications "txReceipts.DAO.new" 2 [10, 20]).length = 3
  ∧ (operationNotifications "txReceipts.DAO.new" 2 [10, 20])[0]?
      = some ⟨"txReceipts.DAO.new", 0, none⟩
  ∧ (operationNotifications "txReceipts.DAO.new" 2 [10, 20])[1]?
      = some ⟨"txReceipts.DAO.new", 1, some 10⟩ :=
  ⟨(transactionService_lifecycle "txReceipts.DAO.new" 2 [10, 20] rfl).1,
   (transactionService_lifecycle "txReceipts.DAO.new" 2 [10, 20] rfl).2.1,
   (transactionService_lifecycle "txReceipts.DAO.new" 2 [10, 20] rfl).2.2
     0 10 rfl⟩

/-- C7: in the `DAO.new` trace the very first action is the kickoff
publication on topic "DAO.new" carrying exactly
`forgeOrgTransactionsCount(options) + setSchemesTransactionsCount(options)`
expected transactions, and every transaction-submitting network call of the
operation comes strictly after it. -/
theorem daoNew_kickoff_count {Opts : Type}
    (forgeCount setSchemesCount : Opts → Nat) (options : Opts) :
    (daoNewActions forgeCount setSchemesCount options)[0]?
      = some (.publishKickoff "DAO.new"
          (forgeCount options + setSchemesCount options))
  ∧ (∀ i callName,
      (daoNewActions forgeCount setSchemesCount options)[i]?
        = some (.networkCall callName) → 0 < i) := by
  refine ⟨rfl, ?_⟩
  intro i callName h
  cases i with
  | zero => simp [daoNewActions] at h
  | succ j => omega

/-- Witness for C7 at a concrete input: with estimators returning 1 and 5
the kickoff carries 6, and the `forgeOrg` network call sits at a positive
index. -/
theorem daoNew_kickoff_count_witness :
    (daoNewActions (fun (_ : Nat) => 1) (fun _ => 5) 0)[0]?
      = some (.publishKickoff "DAO.new" 6)
  ∧ (0 : Nat) < 1 :=
  ⟨(daoNew_kickoff_count (fun (_ : Nat) => 1) (fun _ => 5) 0).1,
   (daoNew_kickoff_count (fun (_ : Nat) => 1) (fun _ => 5) 0).2 1
     "forgeOrg" rfl⟩

/-- C8: handle-directory lookups treat missing entries as a normal outcome —
for a contract-type name not known to the current release
`WrapperService.getContractWrapper` returns `undefined` whatever address is
passed, and for an address at which no wrapper of the given type exists it
returns `undefined`; being a total function, it never throws. -/
theorem wrapperService_getContractWrapper_missing (dir : WrapperDirectory)
    (contract : String) :
    (∀ address, mapGet dir.wrappersByName contract = none →
      getContractWrapper dir contract address = none)
  ∧ (∀ a, dir.wrapperAtAddress contract a = none →
      getContractWrapper dir contract (some a) = none) := by
  constructor
  · intro address hname
    simp [getContractWrapper, hname]
  · intro a haddr
    cases hname : mapGet dir.wrappersByName contract with
    | none => simp [getContractWrapper, hname]
    | some w => simp [getContractWrapper, hname, haddr]

/-- Witness for C8 at a concrete input: an unknown name and a known name at
an address with no wrapper both yield `undefined`. -/
theorem wrapperService_getContractWrapper_missing_witness :
    getContractWrapper ⟨[], fun _ _ => none⟩ "NoSuchScheme" none = none
  ∧ getContractWrapper
      ⟨[("UpgradeScheme", ⟨7, "0xabc"⟩)], fun _ _ => none⟩ "UpgradeScheme"
      (some "0x0000000000000000000000000000000000000000") = none :=
  ⟨(wrapperService_getContractWrapper_missing ⟨[], fun _ _ => none⟩
      "NoSuchScheme").1 none rfl,
   (wrapperService_getContractWrapper_missing
      ⟨[("UpgradeScheme", ⟨7, "0xabc"⟩)], fun _ _ => none⟩ "UpgradeScheme").2
      "0x0000000000000000000000000000000000000000" rfl⟩

theorem hexDigitChar_hexCharVal :
    ∀ d, d < 16 → hexCharVal (hexDigitChar d) = some d := by decide

theorem natToHexAux_append (n : Nat) :
    ∀ acc : List Char, natToHexAux n acc = natToHexAux n [] ++ acc := by
  induction n using Nat.strong_induction_on with
  | _ n ih =>
    intro acc
    by_cases h : n < 16
    · conv_lhs => rw [natToHexAux]
      conv_rhs => rw [natToHexAux]
      simp [h]
    · have hdiv : n / 16 < n := Nat.div_lt_self (by omega) (by omega)
      conv_lhs => rw [natToHexAux]
      conv_rhs => rw [natToHexAux]
      simp only [h, if_false]
      rw [ih (n / 16) hdiv (hexDigitChar (n % 16) :: acc),
          ih (n / 16) hdiv [hexDigitChar (n % 16)]]
      simp

theorem parseHexAux_append (xs : List Char) :
    ∀ (ys : List Char) (acc : Nat),
      parseHexAux (xs ++ ys) acc
        = (parseHexAux xs acc).bind (fun m => parseHexAux ys m) := by
  induction xs with
  | nil => intro ys acc; simp [parseHexAux]
  | cons c rest ih =>
    intro ys acc
    cases h : hexCharVal c with
    | none => simp [parseHexAux, h]
    | some d => simp [parseHexAux, h, ih]

theorem parseHexAux_natToHexAux (n : Nat) :
    ∀ acc : Nat,
      parseHexAux (natToHexAux n []) acc
        = some (acc * 16 ^ (natToHexAux n []).length + n) := by
  induction n using Nat.strong_induction_on with
  | _ n ih =>
    intro acc
    by_cases h : n < 16
    · rw [natToHexAux]
      simp [h, parseHexAux, hexDigitChar_hexCharVal n h]
    · have hdiv : n / 16 < n := Nat.div_lt_self (by omega) (by omega)
      have hmod : n % 16 < 16 := Nat.mod_lt n (by omega)
      rw [natToHexAux]
      simp only [h, if_false]
      rw [natToHexAux_append (n / 16) [hexDigitChar (n % 16)]]
      rw [parseHexAux_append, ih (n / 16) hdiv acc]
      simp only [Option.some_bind]
      rw [show parseHexAux [hexDigitChar (n % 16)]
            (acc * 16 ^ (natToHexAux (n / 16) []).length + n / 16)
          = some ((acc * 16 ^ (natToHexAux (n / 16) []).length + n / 16) * 16
              + n % 16) by
        simp [parseHexAux, hexDigitChar_hexCharVal (n % 16) hmod]]
      have hdm : 16 * (n / 16) + n % 16 = n := Nat.div_add_mod n 16
      have harith :
          (acc * 16 ^ (natToHexAux (n / 16) []).length + n / 16) * 16
            + n % 16
          = acc * 16 ^ ((natToHexAux (n / 16) []).length + 1) + n := by
        calc (acc * 16 ^ (natToHexAux (n / 16) []).length + n / 16) * 16
              + n % 16
            = acc * (16 ^ (natToHexAux (n / 16) []).length * 16)
              + (16 * (n / 16) + n % 16) := by ring
          _ = acc * 16 ^ ((natToHexAux (n / 16) []).length + 1) + n := by
              rw [hdm, pow_succ]
      rw [harith]
      simp

theorem natToHexAux_length_le (n : Nat) :
    ∀ k : Nat, 0 < k → n < 16 ^ k → (natToHexAux n []).length ≤ k := by
  induction n using Nat.strong_induction_on with
  | _ n ih =>
    intro k hk hn
    by_cases h : n < 16
    · rw [natToHexAux]
      simp [h]
      omega
    · have hdiv : n / 16 < n := Nat.div_lt_self (by omega) (by omega)
      rw [natToHexAux]
      simp only [h, if_false]
      rw [natToHexAux_append (n / 16) [hexDigitChar (n % 16)]]
      simp only [List.length_append, List.length_cons, List.length_nil]
      obtain ⟨j, rfl⟩ : ∃ j, k = j + 1 := ⟨k - 1, by omega⟩
      have hj : j ≠ 0 := by
        rintro rfl
        rw [pow_one] at hn
        omega
      have hdivlt : n / 16 < 16 ^ j := by
        rw [Nat.div_lt_iff_lt_mul (by omega : (0 : Nat) < 16)]
        calc n < 16 ^ (j + 1) := hn
          _ = 16 ^ j * 16 := by rw [pow_succ]
      have := ih (n / 16) hdiv j (Nat.pos_of_ne_zero hj) hdivlt
      omega

theorem natToHexAux_all_hex (n : Nat) :
    ∀ c ∈ natToHexAux n [], (hexCharVal c).isSome := by
  induction n using Nat.strong_induction_on with
  | _ n ih =>
    intro c hc
    by_cases h : n < 16
    · rw [natToHexAux] at hc
      simp [h] at hc
      subst hc
      simp [hexDigitChar_hexCharVal n h]
    · have hdiv : n / 16 < n := Nat.div_lt_self (by omega) (by omega)
      rw [natToHexAux] at hc
      simp only [h, if_false] at hc
      rw [natToHexAux_append (n / 16) [hexDigitChar (n % 16)]] at hc
      rcases List.mem_append.mp hc with hmem | hmem
      · exact ih (n / 16) hdiv c hmem
      · simp at hmem
        subst hmem
        simp [hexDigitChar_hexCharVal (n % 16) (Nat.mod_lt n (by omega))]

theorem parseHexAux_replicate_zero :
    ∀ (k acc : Nat),
      parseHexAux (List.replicate k '0') acc = some (acc * 16 ^ k) := by
  intro k
  induction k with
  | zero => intro acc; simp [parseHexAux]
  | succ j ih =>
    intro acc
    simp only [List.replicate_succ]
    have h0 : hexCharVal '0' = some 0 := by decide
    rw [show parseHexAux ('0' :: List.replicate j '0') acc
        = parseHexAux (List.replicate j '0') (acc * 16 + 0) by
      simp [parseHexAux, h0]]
    rw [ih (acc * 16 + 0)]
    congr 1
    rw [pow_succ]
    ring

/-- C10: permissions encoding round-trip — for every p with 0 ≤ p < 2^32,
`Utils.numberToPermissionsString(p)` is the string "0x" followed by exactly 8
hexadecimal digits, and `Utils.permissionsStringToNumber` applied to it
returns exactly p. -/
theorem utils_permissions_roundtrip (p : Nat) (hp : p < 2 ^ 32) :
    (∃ ds : List Char,
      (numberToPermissionsString p).data = '0' :: 'x' :: ds
      ∧ ds.length = 8 ∧ ∀ c ∈ ds, (hexCharVal c).isSome)
  ∧ permissionsStringToNumber (numberToPermissionsString p) = some p := by
  have h16 : p < 16 ^ 8 := by
    have hpow : (16 : Nat) ^ 8 = 2 ^ 32 := by norm_num
    omega
  have hL : (natToHexAux p []).length ≤ 8 :=
    natToHexAux_length_le p 8 (by omega) h16
  have hpad : "00000000".data = List.replicate 8 '0' := rfl
  have hsplitpad : List.replicate 8 '0'
      = List.replicate (natToHexAux p []).length '0'
        ++ List.replicate (8 - (natToHexAux p []).length) '0' := by
    rw [← List.replicate_add]
    congr 1
    omega
  have hdrop : (List.replicate (natToHexAux p []).length '0'
        ++ (List.replicate (8 - (natToHexAux p []).length) '0'
          ++ natToHexAux p [])).drop (natToHexAux p []).length
      = List.replicate (8 - (natToHexAux p []).length) '0'
        ++ natToHexAux p [] := by
    have h := List.drop_left
      (List.replicate (natToHexAux p []).length '0')
      (List.replicate (8 - (natToHexAux p []).length) '0' ++ natToHexAux p [])
    rw [List.length_replicate] at h
    exact h
  have hdata : (numberToPermissionsString p).data
      = '0' :: 'x' :: (List.replicate (8 - (natToHexAux p []).length) '0'
          ++ natToHexAux p []) := by
    show '0' :: 'x' :: ("00000000".data ++ natToHexAux p []).drop
        (("00000000".data ++ natToHexAux p []).length - 8) = _
    rw [hpad]
    have hlen : (List.replicate 8 '0' ++ natToHexAux p []).length - 8
        = (natToHexAux p []).length := by
      simp
    rw [hlen, hsplitpad, List.append_assoc, hdrop]
  have hlen8 : (List.replicate (8 - (natToHexAux p []).length) '0'
      ++ natToHexAux p []).length = 8 := by
    simp only [List.length_append, List.length_replicate]
    omega
  refine ⟨⟨List.replicate (8 - (natToHexAux p []).length) '0'
      ++ natToHexAux p [], hdata, hlen8, ?_⟩, ?_⟩
  · intro c hc
    rcases List.mem_append.mp hc with hmem | hmem
    · rw [List.eq_of_mem_replicate hmem]
      decide
    · exact natToHexAux_all_hex p c hmem
  · have hne : numberToPermissionsString p ≠ "" := by
      intro h
      have hd : (numberToPermissionsString p).data = [] := by rw [h]
      rw [hdata] at hd
      simp at hd
    have hdsne : List.replicate (8 - (natToHexAux p []).length) '0'
        ++ natToHexAux p [] ≠ [] := by
      intro h
      rw [h] at hlen8
      simp at hlen8
    obtain ⟨c0, cs, hcs⟩ := List.exists_cons_of_ne_nil hdsne
    have hparse : parseHexAux (c0 :: cs) 0 = some p := by
      rw [← hcs, parseHexAux_append, parseHexAux_replicate_zero]
      simp [parseHexAux_natToHexAux p 0]
    simp only [permissionsStringToNumber, hne, if_false, jsNumberHex, hdata,
      hcs]
    exact hparse

/-- Witness for C10 at a concrete input: 9 is below 2^32 and survives the
round-trip through the permissions-string encoding. -/
theorem utils_permissions_roundtrip_witness :
    9 < 2 ^ 32
  ∧ permissionsStringToNumber (numberToPermissionsString 9) = some 9 :=
  ⟨by decide, (utils_permissions_roundtrip 9 (by decide)).2⟩

end ArcJs
